import Mathlib

/-!
Verification of the viewport synthesis engine of the ocr-cnn-vit repository.

The repository's notebooks build training samples by rendering random
square view-ports (center, rotation, zoom) from large page rasters through
the `render.AgentView` engine and rejection-sampling loops.  The engine
itself (RasterSpace / ViewportTransform / AgentView / SynchronizedViewSet)
is not shipped with the notebooks; it is embedded here from its
specification.  The dataset-level code (SegmentationDataset,
MultitaskPretrainingDataset, RotationDataset) is embedded directly from
the notebook source.

The geometric core is developed over an arbitrary linear ordered field
with a floor function, so every statement instantiates both at `ℚ`
(for concrete evaluation) and at `ℝ` (for the trigonometric, degree-based
statements).
-/

set_option linter.unusedSectionVars false

namespace OcrViewport

section Engine

variable {K : Type} [LinearOrderedField K] [FloorRing K]

/-- Modelled from the spec: RasterSpace (section 4.1) wraps one raster and
exposes canvas bounds `[0,H) x [0,W)`; `data` is the pixel value at
(row, col), meaningful on the canvas. -/
structure Raster (K : Type) where
  H : ℤ
  W : ℤ
  data : ℤ → ℤ → K

/-- Modelled from the spec: ViewportState (section 3) is the value type
`{center, rotation, zoom}`.  The rotation enters the transform only
through its cosine and sine, stored here as `rcos`/`rsin`; `scale` is the
derived per-output-pixel footprint `2^(-zoom)` (field-of-view divided by
`view_size`). -/
structure ViewportState (K : Type) where
  cy : K
  cx : K
  rcos : K
  rsin : K
  scale : K
deriving DecidableEq

/-- Modelled from the spec: the degree/zoom-exponent form of a viewport
state, with rotation given in degrees and crop side
`view_size * 2^(-zoom)` (sections 3 and 4.2). -/
noncomputable def ViewportState.ofDeg (cy cx r zoom : ℝ) : ViewportState ℝ :=
  ⟨cy, cx, Real.cos (r * Real.pi / 180), Real.sin (r * Real.pi / 180),
   (2 : ℝ) ^ (-zoom)⟩

/-- Canvas-bounds test for a source pixel (section 4.1). -/
def inCanvas (R : Raster K) (y x : ℤ) : Prop :=
  0 ≤ y ∧ y < R.H ∧ 0 ≤ x ∧ x < R.W

instance (R : Raster K) (y x : ℤ) : Decidable (inCanvas R y x) :=
  inferInstanceAs (Decidable (0 ≤ y ∧ y < R.H ∧ 0 ≤ x ∧ x < R.W))

/-- Modelled from the spec: out-of-canvas source coordinates are filled
with the configured `bias` value, with no reflection and no clamping
(section 4.3). -/
def fetch (R : Raster K) (b : K) (y x : ℤ) : K :=
  if inCanvas R y x then R.data y x else b

/-- Modelled from the spec: bilinear interpolation over the four nearest
source samples (section 4.3); the same path is used for continuous and
for categorical 0/255 channels. -/
def bilinear (R : Raster K) (b : K) (y x : K) : K :=
  (1 - (y - (⌊y⌋ : K))) *
      ((1 - (x - (⌊x⌋ : K))) * fetch R b ⌊y⌋ ⌊x⌋ +
        (x - (⌊x⌋ : K)) * fetch R b ⌊y⌋ (⌊x⌋ + 1)) +
    (y - (⌊y⌋ : K)) *
      ((1 - (x - (⌊x⌋ : K))) * fetch R b (⌊y⌋ + 1) ⌊x⌋ +
        (x - (⌊x⌋ : K)) * fetch R b (⌊y⌋ + 1) (⌊x⌋ + 1))

/-- Modelled from the spec: ViewportTransform (section 4.2), row
coordinate.  The output pixel's offset from the patch center
(`view_size / 2`) is scaled by `2^(-zoom)`, rotated by `-rotation` about
the patch center (inverse mapping), then translated by the state's
center. -/
def srcY (n : ℕ) (st : ViewportState K) (i j : ℕ) : K :=
  st.cy + st.scale *
    (st.rcos * ((i : K) - ((n / 2 : ℕ) : K)) +
      st.rsin * ((j : K) - ((n / 2 : ℕ) : K)))

/-- Modelled from the spec: ViewportTransform (section 4.2), column
coordinate. -/
def srcX (n : ℕ) (st : ViewportState K) (i j : ℕ) : K :=
  st.cx + st.scale *
    (st.rcos * ((j : K) - ((n / 2 : ℕ) : K)) -
      st.rsin * ((i : K) - ((n / 2 : ℕ) : K)))

/-- Modelled from the spec: AgentView (section 4.3) binds one raster, a
`view_size` and a boundary fill value `bias`. -/
structure AgentView (K : Type) where
  raster : Raster K
  viewSize : ℕ
  bias : K

/-- Modelled from the spec: `render(center, rotation, zoom)` computes the
transform and resamples each output pixel bilinearly (section 4.3). -/
def AgentView.render (v : AgentView K) (st : ViewportState K) (i j : ℕ) : K :=
  bilinear v.raster v.bias (srcY v.viewSize st i j) (srcX v.viewSize st i j)

/-- Modelled from the spec: SynchronizedViewSet (section 4.4) owns N
co-registered rasters sharing one page's geometry and one view
configuration (view size and fill bias); one draw applies the identical
state to every member. -/
structure SynchronizedViewSet (K : Type) where
  viewSize : ℕ
  bias : K
  members : List (Raster K)

/-- The AgentView a SynchronizedViewSet wraps around one member raster. -/
def SynchronizedViewSet.view (S : SynchronizedViewSet K) (R : Raster K) :
    AgentView K :=
  ⟨R, S.viewSize, S.bias⟩

/-- Modelled from the spec: `render` of a SynchronizedViewSet applies the
identical ViewportState to every member (section 4.4). -/
def SynchronizedViewSet.render (S : SynchronizedViewSet K)
    (st : ViewportState K) : List (ℕ → ℕ → K) :=
  S.members.map (fun R => (S.view R).render st)

/-- The patch produced for the k-th member of a SynchronizedViewSet. -/
def SynchronizedViewSet.patchAt (S : SynchronizedViewSet K)
    (st : ViewportState K) (k : Fin S.members.length) : ℕ → ℕ → K :=
  (S.view (S.members.get k)).render st

end Engine

section EngineLemmas

variable {K : Type} [LinearOrderedField K] [FloorRing K]

/-- Bilinear interpolation at integer source coordinates degenerates to a
single exact fetch: the fractional weights vanish. -/
theorem bilinear_intCast (R : Raster K) (b : K) (a c : ℤ) :
    bilinear R b (a : K) (c : K) = fetch R b a c := by
  unfold bilinear
  simp [Int.floor_intCast]

/-- When all four bilinear corners carry the same value, the interpolant
is that value: the corner weights sum to one. -/
theorem bilinear_const (R : Raster K) (b : K) (y x : K)
    (h00 : fetch R b ⌊y⌋ ⌊x⌋ = b)
    (h01 : fetch R b ⌊y⌋ (⌊x⌋ + 1) = b)
    (h10 : fetch R b (⌊y⌋ + 1) ⌊x⌋ = b)
    (h11 : fetch R b (⌊y⌋ + 1) (⌊x⌋ + 1) = b) :
    bilinear R b y x = b := by
  unfold bilinear
  rw [h00, h01, h10, h11]
  ring

end EngineLemmas

section ClaimC1

variable {K : Type} [LinearOrderedField K] [FloorRing K]

/-- C1: for every ViewportState and every pair of members of one
SynchronizedViewSet, (i) every patch of a draw is the result of rendering
a member with that one shared state — no member is rendered with a
different state within one draw; (ii) output pixel (i,j) of each member is
resampled at the source coordinate `(srcY, srcX)` of the shared transform,
a term independent of the member, so it maps to the identical physical
page location regardless of the member's own content or channel; (iii)
members holding identical content produce pixel-for-pixel identical
patches. -/
theorem synchronized_views_aligned (S : SynchronizedViewSet K)
    (st : ViewportState K) (a b : Fin S.members.length) (i j : ℕ) :
    (∀ p ∈ S.render st, ∃ R ∈ S.members, p = (S.view R).render st) ∧
    S.patchAt st a i j =
      bilinear (S.members.get a) S.bias (srcY S.viewSize st i j)
        (srcX S.viewSize st i j) ∧
    (S.members.get a = S.members.get b → S.patchAt st a = S.patchAt st b) := by
  refine ⟨?_, rfl, ?_⟩
  · intro p hp
    rcases List.mem_map.mp hp with ⟨R, hR, hpR⟩
    exact ⟨R, hR, hpR.symm⟩
  · intro hab
    unfold SynchronizedViewSet.patchAt
    rw [hab]

/-- Witness for C1 at a concrete two-member set over ℚ: the membership
facts hold and the two identical members yield the identical patch. -/
theorem synchronized_views_aligned_witness :
    ((⟨4, 4, fun y x => y + x⟩ : Raster ℚ) =
        (⟨4, 4, fun y x => y + x⟩ : Raster ℚ)) ∧
    SynchronizedViewSet.patchAt
        (⟨2, 0, [⟨4, 4, fun y x => y + x⟩, ⟨4, 4, fun y x => y + x⟩]⟩ :
          SynchronizedViewSet ℚ) ⟨1, 1, 1, 0, 1⟩ ⟨0, by decide⟩ =
      SynchronizedViewSet.patchAt
        (⟨2, 0, [⟨4, 4, fun y x => y + x⟩, ⟨4, 4, fun y x => y + x⟩]⟩ :
          SynchronizedViewSet ℚ) ⟨1, 1, 1, 0, 1⟩ ⟨1, by decide⟩ :=
  ⟨rfl,
    (synchronized_views_aligned
        (⟨2, 0, [⟨4, 4, fun y x => y + x⟩, ⟨4, 4, fun y x => y + x⟩]⟩ :
          SynchronizedViewSet ℚ) ⟨1, 1, 1, 0, 1⟩ ⟨0, by decide⟩
        ⟨1, by decide⟩ 0 0).2.2 rfl⟩

end ClaimC1

section ClaimC4

variable {K : Type} [LinearOrderedField K] [FloorRing K]

/-- C4: when every source coordinate the state's field of view touches —
all four bilinear corners of every output pixel — lies outside the
raster's canvas, the rendered patch is uniformly the configured fill
value `bias`: out-of-canvas coordinates are filled with `bias`, with no
reflection and no clamping. -/
theorem out_of_canvas_fill (R : Raster K) (b : K) (n : ℕ)
    (st : ViewportState K)
    (h : ∀ i : ℕ, i < n → ∀ j : ℕ, j < n →
      ¬ inCanvas R ⌊srcY n st i j⌋ ⌊srcX n st i j⌋ ∧
      ¬ inCanvas R ⌊srcY n st i j⌋ (⌊srcX n st i j⌋ + 1) ∧
      ¬ inCanvas R (⌊srcY n st i j⌋ + 1) ⌊srcX n st i j⌋ ∧
      ¬ inCanvas R (⌊srcY n st i j⌋ + 1) (⌊srcX n st i j⌋ + 1))
    (i j : ℕ) (hi : i < n) (hj : j < n) :
    AgentView.render ⟨R, n, b⟩ st i j = b := by
  obtain ⟨h00, h01, h10, h11⟩ := h i hi j hj
  exact bilinear_const R b _ _ (if_neg h00) (if_neg h01) (if_neg h10)
    (if_neg h11)

/-- Witness for C4 over ℚ: a 2x2 view whose state is centered far outside
a 4x4 canvas renders the bias value 5 at pixel (0,0). -/
theorem out_of_canvas_fill_witness :
    (∀ i : ℕ, i < 2 → ∀ j : ℕ, j < 2 →
      ¬ inCanvas (⟨4, 4, fun _ _ => (7 : ℚ)⟩ : Raster ℚ)
          ⌊srcY 2 (⟨100, 100, 1, 0, 1⟩ : ViewportState ℚ) i j⌋
          ⌊srcX 2 (⟨100, 100, 1, 0, 1⟩ : ViewportState ℚ) i j⌋ ∧
      ¬ inCanvas (⟨4, 4, fun _ _ => (7 : ℚ)⟩ : Raster ℚ)
          ⌊srcY 2 (⟨100, 100, 1, 0, 1⟩ : ViewportState ℚ) i j⌋
          (⌊srcX 2 (⟨100, 100, 1, 0, 1⟩ : ViewportState ℚ) i j⌋ + 1) ∧
      ¬ inCanvas (⟨4, 4, fun _ _ => (7 : ℚ)⟩ : Raster ℚ)
          (⌊srcY 2 (⟨100, 100, 1, 0, 1⟩ : ViewportState ℚ) i j⌋ + 1)
          ⌊srcX 2 (⟨100, 100, 1, 0, 1⟩ : ViewportState ℚ) i j⌋ ∧
      ¬ inCanvas (⟨4, 4, fun _ _ => (7 : ℚ)⟩ : Raster ℚ)
          (⌊srcY 2 (⟨100, 100, 1, 0, 1⟩ : ViewportState ℚ) i j⌋ + 1)
          (⌊srcX 2 (⟨100, 100, 1, 0, 1⟩ : ViewportState ℚ) i j⌋ + 1)) ∧
    AgentView.render (⟨⟨4, 4, fun _ _ => (7 : ℚ)⟩, 2, 5⟩ : AgentView ℚ)
        ⟨100, 100, 1, 0, 1⟩ 0 0 = 5 := by
  have h : ∀ i : ℕ, i < 2 → ∀ j : ℕ, j < 2 →
      ¬ inCanvas (⟨4, 4, fun _ _ => (7 : ℚ)⟩ : Raster ℚ)
          ⌊srcY 2 (⟨100, 100, 1, 0, 1⟩ : ViewportState ℚ) i j⌋
          ⌊srcX 2 (⟨100, 100, 1, 0, 1⟩ : ViewportState ℚ) i j⌋ ∧
      ¬ inCanvas (⟨4, 4, fun _ _ => (7 : ℚ)⟩ : Raster ℚ)
          ⌊srcY 2 (⟨100, 100, 1, 0, 1⟩ : ViewportState ℚ) i j⌋
          (⌊srcX 2 (⟨100, 100, 1, 0, 1⟩ : ViewportState ℚ) i j⌋ + 1) ∧
      ¬ inCanvas (⟨4, 4, fun _ _ => (7 : ℚ)⟩ : Raster ℚ)
          (⌊srcY 2 (⟨100, 100, 1, 0, 1⟩ : ViewportState ℚ) i j⌋ + 1)
          ⌊srcX 2 (⟨100, 100, 1, 0, 1⟩ : ViewportState ℚ) i j⌋ ∧
      ¬ inCanvas (⟨4, 4, fun _ _ => (7 : ℚ)⟩ : Raster ℚ)
          (⌊srcY 2 (⟨100, 100, 1, 0, 1⟩ : ViewportState ℚ) i j⌋ + 1)
          (⌊srcX 2 (⟨100, 100, 1, 0, 1⟩ : ViewportState ℚ) i j⌋ + 1) := by
    intro i hi j hj
    interval_cases i <;> interval_cases j <;>
      norm_num [srcY, srcX, inCanvas]
  exact ⟨h, out_of_canvas_fill (⟨4, 4, fun _ _ => (7 : ℚ)⟩ : Raster ℚ) 5 2
    ⟨100, 100, 1, 0, 1⟩ h 0 0 (by norm_num) (by norm_num)⟩

end ClaimC4

section ClaimC6

/-- C6: render at rotation `r + 360` degrees equals render at rotation `r`
degrees, for every raster, bias, view size, center, zoom and output
pixel: rotation wraps at 360 degrees (here an exact equality of the
real-valued model, hence within any floating-point tolerance). -/
theorem rotation_wraps_at_360 (R : Raster ℝ) (b : ℝ) (n : ℕ)
    (cy cx r zoom : ℝ) (i j : ℕ) :
    AgentView.render ⟨R, n, b⟩ (ViewportState.ofDeg cy cx (r + 360) zoom) i j
      = AgentView.render ⟨R, n, b⟩ (ViewportState.ofDeg cy cx r zoom) i j := by
  have harg : (r + 360) * Real.pi / 180 = r * Real.pi / 180 + 2 * Real.pi := by
    ring
  unfold ViewportState.ofDeg
  rw [harg, Real.cos_add_two_pi, Real.sin_add_two_pi]

end ClaimC6

section Sampling

variable {K : Type} [LinearOrderedField K] [FloorRing K]

/-- Mean pixel value of an `n x n` patch. -/
def patchMean (n : ℕ) (p : ℕ → ℕ → K) : K :=
  (∑ i in Finset.range n, ∑ j in Finset.range n, p i j) / (n : K) ^ 2

/-- Pixel-value dispersion of an `n x n` patch: the mean squared deviation
from the patch mean, i.e. the square of `np.std`.  The source loops
compare `np.std(view) < 10`, which is exactly `dispersion < 100`. -/
def dispersion (n : ℕ) (p : ℕ → ℕ → K) : K :=
  (∑ i in Finset.range n, ∑ j in Finset.range n, (p i j - patchMean n p) ^ 2) /
    (n : K) ^ 2

/-- Modelled from the spec: the structured failure of the sampling policy
once the retry ceiling is hit (sections 7 and 9). -/
inductive SamplingFailure where
  | SamplingExhausted
deriving DecidableEq

/-- Modelled from the spec: the SamplingPolicy rejection loop with the
explicit retry ceiling the spec mandates (sections 4.5 and 9).  `draw k`
is the k-th random ViewportState; a candidate is accepted when the
rendered input view's dispersion meets the threshold `t` (the source
loops at part_000 lines 1030-1034 and part_001 lines 184-188 redraw
while `np.std(view) < 10`, i.e. while `dispersion < 100`); when `fuel`
candidates have all been rejected the draw fails with
`SamplingExhausted`. -/
def drawLoop (v : AgentView K) (t : K) (draw : ℕ → ViewportState K) :
    ℕ → ℕ → Except SamplingFailure (ViewportState K)
  | _, 0 => .error .SamplingExhausted
  | k, fuel + 1 =>
    if t ≤ dispersion v.viewSize (v.render (draw k)) then .ok (draw k)
    else drawLoop v t draw (k + 1) fuel

/-- A rejected candidate (dispersion below threshold) advances the loop to
the next draw. -/
theorem drawLoop_reject (v : AgentView K) (t : K)
    (draw : ℕ → ViewportState K) (k fuel : ℕ)
    (h : dispersion v.viewSize (v.render (draw k)) < t) :
    drawLoop v t draw k (fuel + 1) = drawLoop v t draw (k + 1) fuel := by
  show (if t ≤ dispersion v.viewSize (v.render (draw k)) then
      Except.ok (draw k) else drawLoop v t draw (k + 1) fuel) = _
  rw [if_neg (not_le.mpr h)]

/-- An accepted candidate (dispersion meeting the threshold) is returned
at once. -/
theorem drawLoop_accept (v : AgentView K) (t : K)
    (draw : ℕ → ViewportState K) (k fuel : ℕ)
    (h : t ≤ dispersion v.viewSize (v.render (draw k))) :
    drawLoop v t draw k (fuel + 1) = .ok (draw k) := by
  show (if t ≤ dispersion v.viewSize (v.render (draw k)) then
      Except.ok (draw k) else drawLoop v t draw (k + 1) fuel) = _
  rw [if_pos h]

end Sampling

section ClaimC2

variable {K : Type} [LinearOrderedField K] [FloorRing K]

/-- C2: for a raster whose rendered views all have dispersion below the
acceptance threshold (an all-blank raster, say), the rejection-sampling
draw with a retry ceiling enforced terminates — `drawLoop` is a total
function — and fails with `SamplingExhausted`, for every retry ceiling
and starting draw index. -/
theorem blank_sampling_exhausted (v : AgentView K) (t : K)
    (draw : ℕ → ViewportState K)
    (h : ∀ m : ℕ, dispersion v.viewSize (v.render (draw m)) < t)
    (k fuel : ℕ) :
    drawLoop v t draw k fuel = .error .SamplingExhausted := by
  induction fuel generalizing k with
  | zero => rfl
  | succ f ih =>
    unfold drawLoop
    rw [if_neg (not_le.mpr (h k))]
    exact ih (k + 1)

/-- Witness for C2 over ℚ: an all-blank 4x4 raster with bias 0 renders
dispersion-0 views, so a draw with retry ceiling 3 fails with
SamplingExhausted. -/
theorem blank_sampling_exhausted_witness :
    dispersion 2
        (AgentView.render (⟨⟨4, 4, fun _ _ => 0⟩, 2, 0⟩ : AgentView ℚ)
          ⟨1, 1, 1, 0, 1⟩) < 100 ∧
    drawLoop (⟨⟨4, 4, fun _ _ => 0⟩, 2, 0⟩ : AgentView ℚ) 100
        (fun _ => ⟨1, 1, 1, 0, 1⟩) 0 3 = .error .SamplingExhausted := by
  have hz : AgentView.render (⟨⟨4, 4, fun _ _ => 0⟩, 2, 0⟩ : AgentView ℚ)
      ⟨1, 1, 1, 0, 1⟩ = fun _ _ => 0 := by
    funext i j
    simp [AgentView.render, bilinear, fetch]
  have hd : dispersion 2
      (AgentView.render (⟨⟨4, 4, fun _ _ => 0⟩, 2, 0⟩ : AgentView ℚ)
        ⟨1, 1, 1, 0, 1⟩) < 100 := by
    rw [hz]
    norm_num [dispersion, patchMean]
  exact ⟨hd,
    blank_sampling_exhausted (⟨⟨4, 4, fun _ _ => 0⟩, 2, 0⟩ : AgentView ℚ) 100
      (fun _ => ⟨1, 1, 1, 0, 1⟩) (fun _ => hd) 0 3⟩

end ClaimC2

section ClaimC8

variable {K : Type} [LinearOrderedField K] [FloorRing K]

/-- C8: a state is returned by the rejection-sampling draw only if the
view rendered for it has dispersion meeting the acceptance threshold, and
it is the first such drawn state: every earlier drawn state's rendered
view fell below the threshold and was discarded.  Hence no accepted input
patch is blank or near-blank. -/
theorem accepted_draw_not_blank (v : AgentView K) (t : K)
    (draw : ℕ → ViewportState K) (fuel k : ℕ) (st : ViewportState K)
    (h : drawLoop v t draw k fuel = .ok st) :
    t ≤ dispersion v.viewSize (v.render st) ∧
    ∃ m : ℕ, k ≤ m ∧ st = draw m ∧
      ∀ l : ℕ, k ≤ l → l < m →
        dispersion v.viewSize (v.render (draw l)) < t := by
  induction fuel generalizing k with
  | zero => exact absurd h (by simp [drawLoop])
  | succ f ih =>
    unfold drawLoop at h
    by_cases hc : t ≤ dispersion v.viewSize (v.render (draw k))
    · rw [if_pos hc] at h
      obtain rfl : draw k = st := by simpa using h
      exact ⟨hc, k, le_refl k, rfl, fun l hkl hlk => absurd hkl (by omega)⟩
    · rw [if_neg hc] at h
      obtain ⟨hdisp, m, hkm, hstm, hall⟩ := ih (k + 1) h
      refine ⟨hdisp, m, by omega, hstm, fun l hkl hlm => ?_⟩
      rcases Nat.eq_or_lt_of_le hkl with hlk | hlk
      · exact hlk ▸ not_le.mp hc
      · exact hall l hlk hlm

/-- Witness for C8 over ℚ: a checkerboard raster; the first drawn state is
centered far outside the canvas (blank view, rejected), the second lies on
the page and is accepted, and its view's dispersion meets the
threshold 100. -/
theorem accepted_draw_not_blank_witness :
    drawLoop
        (⟨⟨4, 4, fun y x => if (y + x) % 2 = 0 then 0 else 255⟩, 2, 0⟩ :
          AgentView ℚ) 100
        (fun m => if m = 0 then ⟨100, 100, 1, 0, 1⟩ else ⟨1, 1, 1, 0, 1⟩)
        0 3 = .ok ⟨1, 1, 1, 0, 1⟩ ∧
    100 ≤ dispersion 2
        (AgentView.render
          (⟨⟨4, 4, fun y x => if (y + x) % 2 = 0 then 0 else 255⟩, 2, 0⟩ :
            AgentView ℚ) ⟨1, 1, 1, 0, 1⟩) := by
  have h00 : AgentView.render
      (⟨⟨4, 4, fun y x => if (y + x) % 2 = 0 then 0 else 255⟩, 2, 0⟩ :
        AgentView ℚ) ⟨1, 1, 1, 0, 1⟩ 0 0 = 0 := by
    norm_num [AgentView.render, bilinear, fetch, srcY, srcX, inCanvas]
  have h01 : AgentView.render
      (⟨⟨4, 4, fun y x => if (y + x) % 2 = 0 then 0 else 255⟩, 2, 0⟩ :
        AgentView ℚ) ⟨1, 1, 1, 0, 1⟩ 0 1 = 255 := by
    norm_num [AgentView.render, bilinear, fetch, srcY, srcX, inCanvas]
  have h10 : AgentView.render
      (⟨⟨4, 4, fun y x => if (y + x) % 2 = 0 then 0 else 255⟩, 2, 0⟩ :
        AgentView ℚ) ⟨1, 1, 1, 0, 1⟩ 1 0 = 255 := by
    norm_num [AgentView.render, bilinear, fetch, srcY, srcX, inCanvas]
  have h11 : AgentView.render
      (⟨⟨4, 4, fun y x => if (y + x) % 2 = 0 then 0 else 255⟩, 2, 0⟩ :
        AgentView ℚ) ⟨1, 1, 1, 0, 1⟩ 1 1 = 0 := by
    norm_num [AgentView.render, bilinear, fetch, srcY, srcX, inCanvas]
  have hbig : 100 ≤ dispersion 2
      (AgentView.render
        (⟨⟨4, 4, fun y x => if (y + x) % 2 = 0 then 0 else 255⟩, 2, 0⟩ :
          AgentView ℚ) ⟨1, 1, 1, 0, 1⟩) := by
    rw [dispersion, patchMean]
    simp only [Finset.sum_range_succ, Finset.sum_range_zero, h00, h01, h10,
      h11]
    norm_num
  have hblank : dispersion 2
      (AgentView.render
        (⟨⟨4, 4, fun y x => if (y + x) % 2 = 0 then 0 else 255⟩, 2, 0⟩ :
          AgentView ℚ) ⟨100, 100, 1, 0, 1⟩) < 100 := by
    have hz : AgentView.render
        (⟨⟨4, 4, fun y x => if (y + x) % 2 = 0 then 0 else 255⟩, 2, 0⟩ :
          AgentView ℚ) ⟨100, 100, 1, 0, 1⟩ = fun _ _ => 0 := by
      funext i j
      have hy : (4 : ℤ) ≤
          ⌊srcY 2 (⟨100, 100, 1, 0, 1⟩ : ViewportState ℚ) i j⌋ := by
        rw [Int.le_floor]
        have hi0 : (0 : ℚ) ≤ (i : ℚ) := Nat.cast_nonneg i
        simp only [srcY]
        push_cast
        linarith
      have hfetch : ∀ y x : ℤ, (4 : ℤ) ≤ y →
          fetch (⟨4, 4, fun y x => if (y + x) % 2 = 0 then 0 else 255⟩ :
            Raster ℚ) 0 y x = 0 := by
        intro y x h4
        refine if_neg (fun hIn => ?_)
        have h2 : y < (4 : ℤ) := hIn.2.1
        omega
      show bilinear
        (⟨4, 4, fun y x => if (y + x) % 2 = 0 then 0 else 255⟩ : Raster ℚ) 0
        (srcY 2 (⟨100, 100, 1, 0, 1⟩ : ViewportState ℚ) i j)
        (srcX 2 (⟨100, 100, 1, 0, 1⟩ : ViewportState ℚ) i j) = 0
      exact bilinear_const _ 0 _ _ (hfetch _ _ hy) (hfetch _ _ hy)
        (hfetch _ _ (by omega)) (hfetch _ _ (by omega))
    rw [hz]
    norm_num [dispersion, patchMean]
  have hloop : drawLoop
      (⟨⟨4, 4, fun y x => if (y + x) % 2 = 0 then 0 else 255⟩, 2, 0⟩ :
        AgentView ℚ) 100
      (fun m => if m = 0 then ⟨100, 100, 1, 0, 1⟩ else ⟨1, 1, 1, 0, 1⟩)
      0 3 = .ok ⟨1, 1, 1, 0, 1⟩ := by
    have step0 : drawLoop
        (⟨⟨4, 4, fun y x => if (y + x) % 2 = 0 then 0 else 255⟩, 2, 0⟩ :
          AgentView ℚ) 100
        (fun m => if m = 0 then ⟨100, 100, 1, 0, 1⟩ else ⟨1, 1, 1, 0, 1⟩)
        0 3 = drawLoop
        (⟨⟨4, 4, fun y x => if (y + x) % 2 = 0 then 0 else 255⟩, 2, 0⟩ :
          AgentView ℚ) 100
        (fun m => if m = 0 then ⟨100, 100, 1, 0, 1⟩ else ⟨1, 1, 1, 0, 1⟩)
        1 2 :=
      drawLoop_reject _ 100 _ 0 2 hblank
    have step1 : drawLoop
        (⟨⟨4, 4, fun y x => if (y + x) % 2 = 0 then 0 else 255⟩, 2, 0⟩ :
          AgentView ℚ) 100
        (fun m => if m = 0 then ⟨100, 100, 1, 0, 1⟩ else ⟨1, 1, 1, 0, 1⟩)
        1 2 = .ok ⟨1, 1, 1, 0, 1⟩ :=
      drawLoop_accept _ 100 _ 1 1 hbig
    exact step0.trans step1
  exact ⟨hloop, (accepted_draw_not_blank _ 100 _ 3 0 _ hloop).1⟩

end ClaimC8

section Datasets

/-- Python's `int(...)` applied to a float: truncation toward zero,
embedded on the rationals. -/
def pyInt (q : ℚ) : ℤ := if 0 ≤ q then ⌊q⌋ else -⌊-q⌋

/-- SegmentationDataset.__getitem__, part_000 line 1038: the random skew
increment `int(np.random.rand() * max_skew - max_skew)` with the default
`max_skew = 3`; `u` is the uniform draw of `np.random.rand()`, a value
in `[0, 1)`. -/
def segSkew (u : ℚ) : ℤ := pyInt (u * 3 - 3)

/-- SegmentationDataset.__getitem__, part_000 lines 1035-1038: the
orientation target `Y3 = rotation // 90 + 1` is computed from the base
rotation drawn from {0, 90, 180, 270} BEFORE the random skew is added;
the skewed angle `rotation + skew` is what is subsequently rendered.
Returns `(Y3, rendered rotation)`.  For the non-negative base angles used,
Lean's integer division agrees with Python's floor division. -/
def segItem (rotBase skew : ℤ) : ℤ × ℤ := (rotBase / 90 + 1, rotBase + skew)

/-- MultitaskPretrainingDataset.random_viewport, part_001 lines 168-169:
`np.random.choice([0, 90, 180, 270])` given the uniform index draw. -/
def alignedChoice : Fin 4 → ℤ
  | 0 => 0
  | 1 => 90
  | 2 => 180
  | 3 => 270

/-- MultitaskPretrainingDataset.random_viewport, part_001 lines 163-173:
`center = (space.center * (0.25 + rand() * 1.5)).astype(int)`;
rotation is `choice([0,90,180,270])` when the aligned branch is taken and
`np.random.randint(0, 360)` (the Free mode) otherwise; `zoom = rand() *
4.0 - 3.5`.  `u1`, `u3` are the uniform `[0,1)` draws for center factor
and zoom, `isAligned` the branch draw, `rA`/`rF` the integer draws of the
two branches.  Returns `(center, rotation, zoom)`. -/
def random_viewport (spaceCenter : ℚ × ℚ) (u1 : ℚ) (isAligned : Bool)
    (rA : Fin 4) (rF : Fin 360) (u3 : ℚ) : (ℤ × ℤ) × ℤ × ℚ :=
  ((pyInt (spaceCenter.1 * (1/4 + u1 * 3/2)),
    pyInt (spaceCenter.2 * (1/4 + u1 * 3/2))),
   (if isAligned then alignedChoice rA else (rF : ℤ)),
   u3 * 4 - 7/2)

end Datasets

section ClaimC9

/-- C9 counterexample: the draw `u = 0` is legal for `np.random.rand()`
(its range is `[0, 1)`), yet the skew it yields is
`int(0 * 3 - 3) = -3 = -max_skew`, which is not in the claimed half-open
interval `(-max_skew, 0]`. -/
theorem seg_skew_edge :
    (0 ≤ (0 : ℚ) ∧ (0 : ℚ) < 1) ∧ segSkew 0 = -3 ∧
    ¬ (-3 < segSkew 0 ∧ segSkew 0 ≤ 0) := by
  norm_num [segSkew, pyInt]

/-- C9 (amended): for every uniform draw `u` in `[0, 1)`, the skew
increment `int(u * max_skew - max_skew)` with `max_skew = 3` is an
integer in the closed interval `[-max_skew, 0]`: it is never positive —
so the rendered rotation never exceeds the chosen base angle — and never
below `-max_skew`. -/
theorem seg_skew_range (u : ℚ) (h0 : 0 ≤ u) (h1 : u < 1) :
    -3 ≤ segSkew u ∧ segSkew u ≤ 0 := by
  have hneg : u * 3 - 3 < 0 := by linarith
  rw [segSkew, pyInt, if_neg (not_le.mpr hneg)]
  have hlow : (0 : ℤ) ≤ ⌊-(u * 3 - 3)⌋ := Int.floor_nonneg.mpr (by linarith)
  have hup : ⌊-(u * 3 - 3)⌋ ≤ 3 := by
    have h3 : -(u * 3 - 3) ≤ ((3 : ℤ) : ℚ) := by push_cast; linarith
    calc ⌊-(u * 3 - 3)⌋ ≤ ⌊((3 : ℤ) : ℚ)⌋ := Int.floor_le_floor h3
      _ = 3 := Int.floor_intCast 3
  omega

/-- Witness for the amended C9 at the concrete draw `u = 1/2`. -/
theorem seg_skew_range_witness :
    (0 ≤ (1/2 : ℚ) ∧ (1/2 : ℚ) < 1) ∧
    (-3 ≤ segSkew (1/2) ∧ segSkew (1/2) ≤ 0) :=
  ⟨⟨by norm_num, by norm_num⟩, seg_skew_range (1/2) (by norm_num) (by norm_num)⟩

end ClaimC9

section ClaimC10

/-- C10: the orientation target Y3 is computed from the pre-skew base
rotation, so two draws sharing the base rotation but differing in skew
return the identical Y3, and Y3 always lies in {1, 2, 3, 4}. -/
theorem orientation_label_skew_independent (r s1 s2 : ℤ)
    (hr : r = 0 ∨ r = 90 ∨ r = 180 ∨ r = 270) :
    (segItem r s1).1 = (segItem r s2).1 ∧
    ((segItem r s1).1 = 1 ∨ (segItem r s1).1 = 2 ∨ (segItem r s1).1 = 3 ∨
      (segItem r s1).1 = 4) := by
  refine ⟨rfl, ?_⟩
  rcases hr with rfl | rfl | rfl | rfl <;> norm_num [segItem]

/-- Witness for C10: base rotation 90 with skews -2 and 0 share the
label Y3 = 2. -/
theorem orientation_label_skew_independent_witness :
    ((90 : ℤ) = 0 ∨ (90 : ℤ) = 90 ∨ (90 : ℤ) = 180 ∨ (90 : ℤ) = 270) ∧
    (segItem 90 (-2)).1 = (segItem 90 0).1 ∧
    ((segItem 90 (-2)).1 = 1 ∨ (segItem 90 (-2)).1 = 2 ∨
      (segItem 90 (-2)).1 = 3 ∨ (segItem 90 (-2)).1 = 4) :=
  ⟨Or.inr (Or.inl rfl),
    orientation_label_skew_independent 90 (-2) 0 (Or.inr (Or.inl rfl))⟩

end ClaimC10

section ClaimC7

/-- C7: in Free mode (the non-aligned branch of `random_viewport`) the
rotation returned is exactly the value of the uniform integer draw on
`{0, ..., 359}` — so each angle of `[0, 360)` is produced by exactly one
of the 360 equiprobable draws: the rotation is uniform on `[0, 360)` —
while the zoom always lies in the moderate window `[-3.5, 0.5)` and the
center lies at the page center scaled by a factor in `[0.25, 1.75)`,
centered on 1 (the page center itself). -/
theorem free_mode_rotation_uniform (sc : ℚ × ℚ) (u1 u3 : ℚ) (rA : Fin 4)
    (rF : Fin 360) (hu1 : 0 ≤ u1) (hu2 : u1 < 1) (hu3 : 0 ≤ u3)
    (hu4 : u3 < 1) :
    ((random_viewport sc u1 false rA rF u3).2.1 = (rF : ℤ) ∧
      0 ≤ ((rF : ℤ)) ∧ ((rF : ℤ)) < 360) ∧
    (∀ r : ℤ, 0 ≤ r → r < 360 →
      ∃! u : Fin 360, (random_viewport sc u1 false rA u u3).2.1 = r) ∧
    (-(7/2) ≤ (random_viewport sc u1 false rA rF u3).2.2 ∧
      (random_viewport sc u1 false rA rF u3).2.2 < 1/2) ∧
    ((random_viewport sc u1 false rA rF u3).1 =
        (pyInt (sc.1 * (1/4 + u1 * 3/2)), pyInt (sc.2 * (1/4 + u1 * 3/2))) ∧
      -(3/4) ≤ (1/4 + u1 * 3/2) - 1 ∧ (1/4 + u1 * 3/2) - 1 < 3/4) := by
  refine ⟨⟨rfl, ?_, ?_⟩, ?_, ⟨?_, ?_⟩, rfl, ?_, ?_⟩
  · exact Int.natCast_nonneg rF.val
  · exact_mod_cast rF.isLt
  · intro r hr0 hr1
    refine ⟨⟨r.toNat, by omega⟩, ?_, ?_⟩
    · show ((⟨r.toNat, by omega⟩ : Fin 360) : ℤ) = r
      simp [Int.toNat_of_nonneg hr0]
    · intro u hu
      have huv : ((u.val : ℕ) : ℤ) = r := hu
      apply Fin.ext
      simp only [Fin.val_mk]
      omega
  · show -(7/2) ≤ u3 * 4 - 7/2
    linarith
  · show u3 * 4 - 7/2 < 1/2
    linarith
  · linarith
  · linarith

/-- Witness for C7 at concrete draws: with center (100, 200), `u1 = 0`,
`u3 = 0` and the free-branch draw 45, the returned rotation is 45. -/
theorem free_mode_rotation_uniform_witness :
    (0 ≤ (0 : ℚ) ∧ (0 : ℚ) < 1) ∧
    (random_viewport (100, 200) 0 false 0 ⟨45, by norm_num⟩ 0).2.1 =
      ((⟨45, by norm_num⟩ : Fin 360) : ℤ) :=
  ⟨⟨le_refl 0, by norm_num⟩,
    (free_mode_rotation_uniform (100, 200) 0 0 0 ⟨45, by norm_num⟩
      (le_refl 0) (by norm_num) (le_refl 0) (by norm_num)).1.1⟩

end ClaimC7

section ClaimC5

/-- SegmentationDataset.__getitem__, part_000 line 1046 (and
MultitaskPretrainingDataset.__getitem__, part_001 line 196): the consumer
fixes the value scattered by rotation back to binary,
`(view/255. > 0.25).astype(int)` — per-channel thresholding at 25% of the
maximum before the cross-channel argmax. -/
def fixBinary (v : ℚ) : ℤ := if v / 255 > 1/4 then 1 else 0

/-- C5: rendering a categorical 0/255 class raster goes through the same
bilinear path as continuous channels with no re-binarization: there is a
0/255-valued raster and a genuinely rotated state (nonzero sine, unit
cosine/sine pair) for which an output pixel near a class boundary takes
the value 204, strictly between 0 and 255; the consumer's 25%-of-max
threshold then recovers the discrete label 1. -/
theorem categorical_not_rebinarized :
    ∃ (R : Raster ℚ) (st : ViewportState ℚ) (i j : ℕ),
      (∀ y x : ℤ, R.data y x = 0 ∨ R.data y x = 255) ∧
      st.rsin ≠ 0 ∧ st.rcos ^ 2 + st.rsin ^ 2 = 1 ∧
      0 < AgentView.render ⟨R, 2, 0⟩ st i j ∧
      AgentView.render ⟨R, 2, 0⟩ st i j < 255 ∧
      fixBinary (AgentView.render ⟨R, 2, 0⟩ st i j) = 1 := by
  refine ⟨⟨8, 8, fun _ x => if 3 ≤ x then 255 else 0⟩,
    ⟨3, 3, 4/5, 3/5, 1⟩, 0, 0, ?_, by norm_num, by norm_num, ?_, ?_, ?_⟩
  · intro y x
    by_cases h : 3 ≤ x
    · right
      simp [h]
    · left
      simp [h]
  all_goals {
    have hval : AgentView.render
        (⟨⟨8, 8, fun _ x => if 3 ≤ x then 255 else 0⟩, 2, 0⟩ : AgentView ℚ)
        ⟨3, 3, 4/5, 3/5, 1⟩ 0 0 = 204 := by
      norm_num [AgentView.render, bilinear, fetch, srcY, srcX, inCanvas]
    rw [hval]
    norm_num [fixBinary] }

end ClaimC5

section ClaimC3

variable {K : Type} [LinearOrderedField K] [FloorRing K]

/-- Integer offset of output pixel index `i` from the patch center
`view_size / 2`. -/
def off (n i : ℕ) : ℤ := (i : ℤ) - ((n / 2 : ℕ) : ℤ)

/-- Cosine of the quarter-turn `90 * k` degrees, as an integer, for
`k` in {0, 1, 2, 3}. -/
def qcos (k : ℤ) : ℤ := if k = 0 then 1 else if k = 2 then -1 else 0

/-- Sine of the quarter-turn `90 * k` degrees, as an integer, for
`k` in {0, 1, 2, 3}. -/
def qsin (k : ℤ) : ℤ := if k = 1 then 1 else if k = 3 then -1 else 0

/-- An in-canvas source pixel is fetched exactly, never replaced by the
bias. -/
theorem fetch_inCanvas (R : Raster K) (b : K) (y x : ℤ)
    (h : inCanvas R y x) : fetch R b y x = R.data y x :=
  if_pos h

/-- A state whose center, rotation cosine/sine and scale-1 footprint are
all integers maps every output pixel to an integer source coordinate, so
the bilinear resampling collapses to a single exact fetch. -/
theorem render_intState (R : Raster K) (b : K) (n : ℕ) (cy cx c s : ℤ)
    (i j : ℕ) :
    AgentView.render ⟨R, n, b⟩
        (⟨(cy : K), (cx : K), (c : K), (s : K), 1⟩ : ViewportState K) i j
      = fetch R b (cy + c * off n i + s * off n j)
          (cx + c * off n j - s * off n i) := by
  have hy : srcY n
      (⟨(cy : K), (cx : K), (c : K), (s : K), 1⟩ : ViewportState K) i j
      = ((cy + c * off n i + s * off n j : ℤ) : K) := by
    simp only [srcY, off]
    generalize (n / 2 : ℕ) = m
    push_cast
    ring
  have hx : srcX n
      (⟨(cy : K), (cx : K), (c : K), (s : K), 1⟩ : ViewportState K) i j
      = ((cx + c * off n j - s * off n i : ℤ) : K) := by
    simp only [srcX, off]
    generalize (n / 2 : ℕ) = m
    push_cast
    ring
  show bilinear R b
      (srcY n (⟨(cy : K), (cx : K), (c : K), (s : K), 1⟩ : ViewportState K)
        i j)
      (srcX n (⟨(cy : K), (cx : K), (c : K), (s : K), 1⟩ : ViewportState K)
        i j) = _
  rw [hy, hx, bilinear_intCast]

/-- Rendering through the degree-based state with zoom exponent 0 at a
rotation whose cosine and sine are the integers `c` and `s` is an exact
fetch at integer coordinates. -/
theorem render_ofDeg_int (R : Raster ℝ) (b : ℝ) (n : ℕ) (cy cx c s : ℤ)
    (r : ℝ) (hc : Real.cos (r * Real.pi / 180) = (c : ℝ))
    (hs : Real.sin (r * Real.pi / 180) = (s : ℝ)) (i j : ℕ) :
    AgentView.render ⟨R, n, b⟩
        (ViewportState.ofDeg (cy : ℝ) (cx : ℝ) r 0) i j
      = fetch R b (cy + c * off n i + s * off n j)
          (cx + c * off n j - s * off n i) := by
  have hst : ViewportState.ofDeg (cy : ℝ) (cx : ℝ) r 0
      = ⟨(cy : ℝ), (cx : ℝ), (c : ℝ), (s : ℝ), 1⟩ := by
    rw [ViewportState.ofDeg, hc, hs, neg_zero, Real.rpow_zero]
  rw [hst]
  exact render_intState R b n cy cx c s i j

/-- C3: for every raster, every center whose `view_size`-sided field of
view lies inside the canvas, and every rotation `90 * k` degrees with
`k` in {0, 1, 2, 3}, rendering with zoom exponent 0 (crop side
`view_size * 2^(-0) = view_size`) returns exactly the direct array
slice of the source rotated by that angle: output pixel (i, j) is the
unweighted source value at the integer index obtained by the quarter-turn
rotation of the pixel's offset — an exact, lossless round trip with no
interpolation. -/
theorem axis_aligned_lossless (R : Raster ℝ) (b : ℝ) (n : ℕ) (cy cx : ℤ)
    (k : ℤ) (hk : k = 0 ∨ k = 1 ∨ k = 2 ∨ k = 3)
    (hcy : ((n / 2 : ℕ) : ℤ) ≤ cy ∧ cy + ((n / 2 : ℕ) : ℤ) < R.H)
    (hcx : ((n / 2 : ℕ) : ℤ) ≤ cx ∧ cx + ((n / 2 : ℕ) : ℤ) < R.W)
    (i j : ℕ) (hi : i < n) (hj : j < n) :
    AgentView.render ⟨R, n, b⟩
        (ViewportState.ofDeg (cy : ℝ) (cx : ℝ) (90 * (k : ℝ)) 0) i j
      = R.data (cy + qcos k * off n i + qsin k * off n j)
          (cx + qcos k * off n j - qsin k * off n i) := by
  obtain ⟨hcy1, hcy2⟩ := hcy
  obtain ⟨hcx1, hcx2⟩ := hcx
  rcases hk with rfl | rfl | rfl | rfl
  · have e : (90 * ((0 : ℤ) : ℝ)) * Real.pi / 180 = 0 := by
      push_cast
      ring
    have hc : Real.cos ((90 * ((0 : ℤ) : ℝ)) * Real.pi / 180)
        = ((qcos 0 : ℤ) : ℝ) := by
      rw [e, Real.cos_zero]
      norm_num [qcos]
    have hs : Real.sin ((90 * ((0 : ℤ) : ℝ)) * Real.pi / 180)
        = ((qsin 0 : ℤ) : ℝ) := by
      rw [e, Real.sin_zero]
      norm_num [qsin]
    rw [render_ofDeg_int R b n cy cx (qcos 0) (qsin 0) _ hc hs i j]
    have hq1 : qcos 0 = 1 := by decide
    have hq2 : qsin 0 = 0 := by decide
    rw [hq1, hq2]
    refine fetch_inCanvas R b _ _ ⟨?_, ?_, ?_, ?_⟩ <;>
      simp only [off] <;> omega
  · have e : (90 * ((1 : ℤ) : ℝ)) * Real.pi / 180 = Real.pi / 2 := by
      push_cast
      ring
    have hc : Real.cos ((90 * ((1 : ℤ) : ℝ)) * Real.pi / 180)
        = ((qcos 1 : ℤ) : ℝ) := by
      rw [e, Real.cos_pi_div_two]
      norm_num [qcos]
    have hs : Real.sin ((90 * ((1 : ℤ) : ℝ)) * Real.pi / 180)
        = ((qsin 1 : ℤ) : ℝ) := by
      rw [e, Real.sin_pi_div_two]
      norm_num [qsin]
    rw [render_ofDeg_int R b n cy cx (qcos 1) (qsin 1) _ hc hs i j]
    have hq1 : qcos 1 = 0 := by decide
    have hq2 : qsin 1 = 1 := by decide
    rw [hq1, hq2]
    refine fetch_inCanvas R b _ _ ⟨?_, ?_, ?_, ?_⟩ <;>
      simp only [off] <;> omega
  · have e : (90 * ((2 : ℤ) : ℝ)) * Real.pi / 180 = Real.pi := by
      push_cast
      ring
    have hc : Real.cos ((90 * ((2 : ℤ) : ℝ)) * Real.pi / 180)
        = ((qcos 2 : ℤ) : ℝ) := by
      rw [e, Real.cos_pi]
      norm_num [qcos]
    have hs : Real.sin ((90 * ((2 : ℤ) : ℝ)) * Real.pi / 180)
        = ((qsin 2 : ℤ) : ℝ) := by
      rw [e, Real.sin_pi]
      norm_num [qsin]
    rw [render_ofDeg_int R b n cy cx (qcos 2) (qsin 2) _ hc hs i j]
    have hq1 : qcos 2 = -1 := by decide
    have hq2 : qsin 2 = 0 := by decide
    rw [hq1, hq2]
    refine fetch_inCanvas R b _ _ ⟨?_, ?_, ?_, ?_⟩ <;>
      simp only [off] <;> omega
  · have e : (90 * ((3 : ℤ) : ℝ)) * Real.pi / 180
        = Real.pi + Real.pi / 2 := by
      push_cast
      ring
    have hc : Real.cos ((90 * ((3 : ℤ) : ℝ)) * Real.pi / 180)
        = ((qcos 3 : ℤ) : ℝ) := by
      rw [e, Real.cos_add, Real.cos_pi, Real.sin_pi, Real.cos_pi_div_two,
        Real.sin_pi_div_two]
      norm_num [qcos]
    have hs : Real.sin ((90 * ((3 : ℤ) : ℝ)) * Real.pi / 180)
        = ((qsin 3 : ℤ) : ℝ) := by
      rw [e, Real.sin_add, Real.cos_pi, Real.sin_pi, Real.cos_pi_div_two,
        Real.sin_pi_div_two]
      norm_num [qsin]
    rw [render_ofDeg_int R b n cy cx (qcos 3) (qsin 3) _ hc hs i j]
    have hq1 : qcos 3 = 0 := by decide
    have hq2 : qsin 3 = -1 := by decide
    rw [hq1, hq2]
    refine fetch_inCanvas R b _ _ ⟨?_, ?_, ?_, ?_⟩ <;>
      simp only [off] <;> omega

/-- Witness for C3: a 4x4 raster with value `10*y + x`, view size 2,
center (2, 2), rotation 90 degrees (k = 1), pixel (0, 0). -/
theorem axis_aligned_lossless_witness :
    ((1 : ℤ) = 0 ∨ (1 : ℤ) = 1 ∨ (1 : ℤ) = 2 ∨ (1 : ℤ) = 3) ∧
    AgentView.render
        (⟨⟨4, 4, fun y x => ((y * 10 + x : ℤ) : ℝ)⟩, 2, 0⟩ : AgentView ℝ)
        (ViewportState.ofDeg ((2 : ℤ) : ℝ) ((2 : ℤ) : ℝ)
          (90 * ((1 : ℤ) : ℝ)) 0) 0 0
      = Raster.data (⟨4, 4, fun y x => ((y * 10 + x : ℤ) : ℝ)⟩ : Raster ℝ)
          (2 + qcos 1 * off 2 0 + qsin 1 * off 2 0)
          (2 + qcos 1 * off 2 0 - qsin 1 * off 2 0) :=
  ⟨Or.inr (Or.inl rfl),
    axis_aligned_lossless (⟨4, 4, fun y x => ((y * 10 + x : ℤ) : ℝ)⟩ :
        Raster ℝ) 0 2 2 2 1 (Or.inr (Or.inl rfl))
      (by norm_num) (by norm_num) 0 0 (by norm_num) (by norm_num)⟩

end ClaimC3

end OcrViewport
